import Mathlib

/-!
The unity-build translation unit `cimgui_unity.cpp`.

`vendor/cimgui/cimgui_unity.cpp` consists of preprocessor directives only.
This development embeds

* the text of the file, line by line (`cimgui_unity_cpp`);
* the reading of one line as a preprocessor directive (`parseLine`);
* the directive-level behaviour of the preprocessor on such lines
  (`step`, `run`, `preprocess`): object-like `#define`, `#include "..."`,
  `#ifdef` / `#endif` with a stack of open conditional groups.

The files named by the `#include` lines are not part of the repository
fragment, so an inclusion is recorded (path, and the definitions in force at
that point) and the text of the included file is not expanded.
-/

namespace CimguiUnity

/-! ## The source text -/

/-- The fifteen lines of `vendor/cimgui/cimgui_unity.cpp`, verbatim. -/
def cimgui_unity_cpp : List String :=
  [ "#define IMGUI_DISABLE_OBSOLETE_FUNCTIONS 1",
    "#define IMGUI_DISABLE_OBSOLETE_KEYIO 1",
    "#define IMGUI_USE_WCHAR32 1",
    "#define IMGUI_IMPL_API extern \"C\"",
    "#define ImTextureID unsigned long long",
    "",
    "#include \"imgui/imgui.cpp\"",
    "#include \"imgui/imgui_draw.cpp\"",
    "#include \"imgui/imgui_demo.cpp\"",
    "#include \"imgui/imgui_tables.cpp\"",
    "#include \"imgui/imgui_widgets.cpp\"",
    "#ifdef IMGUI_ENABLE_FREETYPE",
    "#include \"imgui/imgui_freetype.cpp\"",
    "#endif",
    "#include \"cimgui.cpp\"" ]

/-! ## Lines as directives -/

/-- One line of a source file, read by the preprocessor. -/
inductive Directive where
  /-- `#define name body...` (object-like; the body is a token sequence). -/
  | define (name : String) (body : List String)
  /-- `#include "path"`. -/
  | incl (path : String)
  /-- `#ifdef name`. -/
  | ifDefined (name : String)
  /-- `#endif`. -/
  | endif
  /-- A line holding white space only. -/
  | blank
  /-- A line of program text (its first word does not start with `#`). -/
  | text (line : String)
  /-- Any other line starting with `#`, or one of the four directives above
  with the wrong number of operands. -/
  | unsupported (line : String)
  deriving DecidableEq

/-- White space inside a line: blank and horizontal tab. -/
def isSpace (c : Char) : Bool := c == ' ' || c == Char.ofNat 9

/-- Splits a line at white space; `cur` is the word being read, reversed. -/
def wordsAux : List Char → List Char → List String
  | [], cur => if cur.isEmpty then [] else [String.mk cur.reverse]
  | c :: cs, cur =>
    if isSpace c then
      if cur.isEmpty then wordsAux cs [] else String.mk cur.reverse :: wordsAux cs []
    else wordsAux cs (c :: cur)

/-- The white-space separated words of a line. -/
def words (line : String) : List String := wordsAux line.data []

/-- The path between the double quotes of an `#include "path"` operand. -/
def unquote (w : String) : Option String :=
  match w.data with
  | q :: rest =>
    if q == Char.ofNat 34 ∧ rest.getLast? = some (Char.ofNat 34)
    then some (String.mk rest.dropLast) else none
  | [] => none

/-- Whether a word is an identifier: letters, digits and `_`, the first not
a digit. -/
def isIdentifier (w : String) : Bool :=
  match w.data with
  | [] => false
  | c :: cs => (c.isAlpha || c == '_') && cs.all fun d => d.isAlphanum || d == '_'

/-- Reads one line as a directive. -/
def parseLine (line : String) : Directive :=
  match words line with
  | [] => .blank
  | w :: operands =>
    if w = "#define" then
      match operands with
      | name :: body => if isIdentifier name then .define name body else .unsupported line
      | [] => .unsupported line
    else if w = "#include" then
      match operands with
      | [p] => match unquote p with
        | some path => .incl path
        | none => .unsupported line
      | _ => .unsupported line
    else if w = "#ifdef" then
      match operands with
      | [name] => if isIdentifier name then .ifDefined name else .unsupported line
      | _ => .unsupported line
    else if w = "#endif" then
      match operands with
      | [] => .endif
      | _ => .unsupported line
    else if w.data.head? = some '#' then .unsupported line
    else .text line

/-- The directives of `cimgui_unity.cpp`, one per line. -/
def directives : List Directive := cimgui_unity_cpp.map parseLine

/-! ## The preprocessor on directives -/

/-- A set of definitions in force: name and replacement token sequence, the
most recent definition first. The definitions made outside the file (on the
compiler command line) are such a list as well. -/
abbrev Env := List (String × List String)

/-- The replacement of `name`: that of its most recent definition. -/
def lookup : Env → String → Option (List String)
  | [], _ => none
  | (n, body) :: rest, name => if n = name then some body else lookup rest name

/-- Whether `name` is defined, as `#ifdef name` asks. -/
def isDefined (env : Env) (name : String) : Bool := (lookup env name).isSome

/-- The effect of `#define name body`. A name that is defined already takes
the new replacement (compilers diagnose this and then go on with the new
definition). -/
def addDefinition (env : Env) (name : String) (body : List String) : Env :=
  (name, body) :: env

/-- One `#include` carried out: the file named and the definitions in force
where its text is expanded. -/
structure Inclusion where
  path : String
  env : Env
  deriving DecidableEq

/-- The state of the preprocessor between two lines. -/
structure State where
  /-- The definitions in force. -/
  env : Env
  /-- The conditional groups that are open, innermost first: `true` for a
  group whose condition held. -/
  conds : List Bool
  /-- The inclusions carried out so far, in order. -/
  included : List Inclusion
  deriving DecidableEq

/-- Lines are processed only when every open group had a true condition. -/
def State.active (s : State) : Bool := s.conds.all id

/-- Processes one line. `none`: the line cannot be processed (an unsupported
directive, or `#endif` with no group open). An `#include` in a processed
group is recorded with the definitions in force; the included file is not at
hand, so none of its own lines is processed. -/
def step (s : State) : Directive → Option State
  | .define name body =>
    if s.active then some { s with env := addDefinition s.env name body } else some s
  | .incl path =>
    if s.active then some { s with included := s.included ++ [⟨path, s.env⟩] } else some s
  | .ifDefined name => some { s with conds := isDefined s.env name :: s.conds }
  | .endif =>
    match s.conds with
    | [] => none
    | _ :: outer => some { s with conds := outer }
  | .blank => some s
  | .text _ => some s
  | .unsupported _ => none

/-- Processes the lines in order. -/
def run (s : State) : List Directive → Option State
  | [] => some s
  | d :: ds =>
    match step s d with
    | some t => run t ds
    | none => none

/-- What preprocessing a file yields. -/
structure Output where
  /-- The definitions in force at the end of the file. -/
  env : Env
  /-- The inclusions carried out, in order. -/
  included : List Inclusion
  deriving DecidableEq

/-- The files included, in order. -/
def Output.files (o : Output) : List String := o.included.map Inclusion.path

/-- Preprocesses the lines of a file, starting from the definitions made
outside it. `none` when a line cannot be processed or a conditional group is
left open at the end of the file. -/
def preprocess (predefined : Env) (file : List String) : Option Output :=
  match run ⟨predefined, [], []⟩ (file.map parseLine) with
  | some s => if s.conds.isEmpty then some ⟨s.env, s.included⟩ else none
  | none => none

/-- The definitions in force after the first `n` lines of a file. -/
def envAfterLines (predefined : Env) (file : List String) (n : Nat) : Option Env :=
  (run ⟨predefined, [], []⟩ ((file.take n).map parseLine)).map State.env

/-- The names a file defines: those of its `#define` lines, in order. -/
def definedNames (file : List String) : List String :=
  (file.map parseLine).filterMap fun d =>
    match d with
    | .define name _ => some name
    | _ => none

/-- Whether a line is one of the four directives `#define`, `#include`,
`#ifdef`, `#endif`. -/
def Directive.isDirective : Directive → Bool
  | .define _ _ => true
  | .incl _ => true
  | .ifDefined _ => true
  | .endif => true
  | _ => false

/-- Whether a line is a `#define`. -/
def Directive.isDefine : Directive → Bool
  | .define _ _ => true
  | _ => false

/-- Whether a line is an `#include`. -/
def Directive.isIncl : Directive → Bool
  | .incl _ => true
  | _ => false

/-- The definitions of lines 1 to 5 of `cimgui_unity.cpp` made on top of
`predefined`, as `addDefinition` stacks them. -/
def withDefinitionBlock (predefined : Env) : Env :=
  ("ImTextureID", ["unsigned", "long", "long"]) ::
  ("IMGUI_IMPL_API", ["extern", "\"C\""]) ::
  ("IMGUI_USE_WCHAR32", ["1"]) ::
  ("IMGUI_DISABLE_OBSOLETE_KEYIO", ["1"]) ::
  ("IMGUI_DISABLE_OBSOLETE_FUNCTIONS", ["1"]) :: predefined

/-! ## The optional feature sets -/

/-- The four optional feature sets the specification names. -/
inductive Feature where
  /-- Wide-character text: `IMGUI_USE_WCHAR32`. -/
  | wideCharText
  /-- Texture identifier width: `ImTextureID`. -/
  | textureIdWidth
  /-- Obsolete API exclusion: `IMGUI_DISABLE_OBSOLETE_FUNCTIONS` and
  `IMGUI_DISABLE_OBSOLETE_KEYIO`. -/
  | obsoleteApiExclusion
  /-- Font rasterization backend: `imgui/imgui_freetype.cpp`. -/
  | fontRasterBackend
  deriving DecidableEq

/-- The setting of a feature: the replacements of its names after line 5, or
whether the freetype source is included. -/
inductive Setting where
  | definitions (bodies : List (Option (List String)))
  | included (present : Bool)
  deriving DecidableEq

/-- The setting of a feature that preprocessing `cimgui_unity.cpp` gives when
started from the definitions `predefined`. -/
def Feature.setting (f : Feature) (predefined : Env) : Option Setting :=
  match f with
  | .wideCharText =>
    (envAfterLines predefined cimgui_unity_cpp 5).map fun env =>
      .definitions [lookup env "IMGUI_USE_WCHAR32"]
  | .textureIdWidth =>
    (envAfterLines predefined cimgui_unity_cpp 5).map fun env =>
      .definitions [lookup env "ImTextureID"]
  | .obsoleteApiExclusion =>
    (envAfterLines predefined cimgui_unity_cpp 5).map fun env =>
      .definitions [lookup env "IMGUI_DISABLE_OBSOLETE_FUNCTIONS",
        lookup env "IMGUI_DISABLE_OBSOLETE_KEYIO"]
  | .fontRasterBackend =>
    (preprocess predefined cimgui_unity_cpp).map fun out =>
      .included (decide ("imgui/imgui_freetype.cpp" ∈ out.files))

/-- A feature is toggled by the configuration when two sets of outside
definitions give it different settings. -/
def Feature.Toggled (f : Feature) : Prop :=
  ∃ e1 e2 : Env, f.setting e1 ≠ f.setting e2

/-! ## Evaluation of the file -/

theorem directives_eq :
    directives =
      [ .define "IMGUI_DISABLE_OBSOLETE_FUNCTIONS" ["1"],
        .define "IMGUI_DISABLE_OBSOLETE_KEYIO" ["1"],
        .define "IMGUI_USE_WCHAR32" ["1"],
        .define "IMGUI_IMPL_API" ["extern", "\"C\""],
        .define "ImTextureID" ["unsigned", "long", "long"],
        .blank,
        .incl "imgui/imgui.cpp",
        .incl "imgui/imgui_draw.cpp",
        .incl "imgui/imgui_demo.cpp",
        .incl "imgui/imgui_tables.cpp",
        .incl "imgui/imgui_widgets.cpp",
        .ifDefined "IMGUI_ENABLE_FREETYPE",
        .incl "imgui/imgui_freetype.cpp",
        .endif,
        .incl "cimgui.cpp" ] := by
  decide

theorem definedNames_eq :
    definedNames cimgui_unity_cpp =
      [ "IMGUI_DISABLE_OBSOLETE_FUNCTIONS", "IMGUI_DISABLE_OBSOLETE_KEYIO",
        "IMGUI_USE_WCHAR32", "IMGUI_IMPL_API", "ImTextureID" ] := by
  decide

theorem isDefined_cons (n : String) (body : List String) (env : Env) (name : String) :
    isDefined ((n, body) :: env) name = (decide (n = name) || isDefined env name) := by
  by_cases h : n = name <;> simp [isDefined, lookup, h]

theorem isDefined_withDefinitionBlock (predefined : Env) :
    isDefined (withDefinitionBlock predefined) "IMGUI_ENABLE_FREETYPE" =
      isDefined predefined "IMGUI_ENABLE_FREETYPE" := by
  simp [withDefinitionBlock, isDefined_cons]

theorem envAfterLines_five (predefined : Env) :
    envAfterLines predefined cimgui_unity_cpp 5 = some (withDefinitionBlock predefined) := by
  have h : (cimgui_unity_cpp.take 5).map parseLine = directives.take 5 := by
    simp [directives, List.map_take]
  rw [envAfterLines, h, directives_eq]
  simp [run, step, State.active, addDefinition, withDefinitionBlock]

theorem preprocess_eq (predefined : Env) :
    preprocess predefined cimgui_unity_cpp =
      some ⟨withDefinitionBlock predefined,
        (["imgui/imgui.cpp", "imgui/imgui_draw.cpp", "imgui/imgui_demo.cpp",
          "imgui/imgui_tables.cpp", "imgui/imgui_widgets.cpp"] ++
          (if isDefined predefined "IMGUI_ENABLE_FREETYPE" then ["imgui/imgui_freetype.cpp"]
           else []) ++ ["cimgui.cpp"]).map
          fun p => ⟨p, withDefinitionBlock predefined⟩⟩ := by
  have h : cimgui_unity_cpp.map parseLine = directives := rfl
  have hd := isDefined_withDefinitionBlock predefined
  rw [withDefinitionBlock] at hd
  rw [preprocess, h, directives_eq]
  cases hft : isDefined predefined "IMGUI_ENABLE_FREETYPE" <;>
    simp [run, step, State.active, addDefinition, withDefinitionBlock, hd, hft]

theorem lookup_withDefinitionBlock_of_not_mem (predefined : Env) (name : String)
    (h : name ∉ definedNames cimgui_unity_cpp) :
    lookup (withDefinitionBlock predefined) name = lookup predefined name := by
  rw [definedNames_eq] at h
  simp only [List.mem_cons, List.mem_singleton, List.not_mem_nil, not_or, or_false] at h
  obtain ⟨h1, h2, h3, h4, h5⟩ := h
  simp [withDefinitionBlock, lookup, Ne.symm h1, Ne.symm h2, Ne.symm h3, Ne.symm h4,
    Ne.symm h5]

theorem lookup_withDefinitionBlock_of_mem (e1 e2 : Env) (name : String)
    (h : name ∈ definedNames cimgui_unity_cpp) :
    lookup (withDefinitionBlock e1) name = lookup (withDefinitionBlock e2) name := by
  rw [definedNames_eq] at h
  simp only [List.mem_cons, List.mem_singleton, List.not_mem_nil, or_false] at h
  rcases h with h | h | h | h | h <;> subst h <;> simp [withDefinitionBlock, lookup]

theorem setting_wideCharText (predefined : Env) :
    Feature.setting .wideCharText predefined = some (.definitions [some ["1"]]) := by
  simp [Feature.setting, envAfterLines_five, withDefinitionBlock, lookup]

theorem setting_textureIdWidth (predefined : Env) :
    Feature.setting .textureIdWidth predefined =
      some (.definitions [some ["unsigned", "long", "long"]]) := by
  simp [Feature.setting, envAfterLines_five, withDefinitionBlock, lookup]

theorem setting_obsoleteApiExclusion (predefined : Env) :
    Feature.setting .obsoleteApiExclusion predefined =
      some (.definitions [some ["1"], some ["1"]]) := by
  simp [Feature.setting, envAfterLines_five, withDefinitionBlock, lookup]

theorem setting_fontRasterBackend (predefined : Env) :
    Feature.setting .fontRasterBackend predefined =
      some (.included (isDefined predefined "IMGUI_ENABLE_FREETYPE")) := by
  cases hft : isDefined predefined "IMGUI_ENABLE_FREETYPE" <;>
    simp [Feature.setting, preprocess_eq, Output.files, hft]

/-! ## The claims -/

/-- C1. For every set of definitions made outside the file, preprocessing
`cimgui_unity.cpp` succeeds and `imgui/imgui_freetype.cpp` is among the files
included if and only if `IMGUI_ENABLE_FREETYPE` is defined outside; the file
has no `#define` of `IMGUI_ENABLE_FREETYPE`. -/
theorem freetype_included_iff (predefined : Env) :
    "IMGUI_ENABLE_FREETYPE" ∉ definedNames cimgui_unity_cpp ∧
    ∃ out, preprocess predefined cimgui_unity_cpp = some out ∧
      ("imgui/imgui_freetype.cpp" ∈ out.files ↔
        isDefined predefined "IMGUI_ENABLE_FREETYPE" = true) := by
  refine ⟨by rw [definedNames_eq]; decide, _, preprocess_eq predefined, ?_⟩
  cases hft : isDefined predefined "IMGUI_ENABLE_FREETYPE" <;> simp [Output.files]

/-- C2. For every set of definitions made outside the file, the files
included are the five library sources, then `imgui/imgui_freetype.cpp` only
when `IMGUI_ENABLE_FREETYPE` is defined, then `cimgui.cpp`, in that order;
no file occurs twice, the five library sources come first whatever the
configuration, and `cimgui.cpp` is the last element. -/
theorem included_files_exact (predefined : Env) :
    ∃ out, preprocess predefined cimgui_unity_cpp = some out ∧
      out.files =
        ["imgui/imgui.cpp", "imgui/imgui_draw.cpp", "imgui/imgui_demo.cpp",
          "imgui/imgui_tables.cpp", "imgui/imgui_widgets.cpp"] ++
        (if isDefined predefined "IMGUI_ENABLE_FREETYPE" = true
          then ["imgui/imgui_freetype.cpp"] else []) ++ ["cimgui.cpp"] ∧
      out.files.Nodup ∧
      out.files.take 5 =
        ["imgui/imgui.cpp", "imgui/imgui_draw.cpp", "imgui/imgui_demo.cpp",
          "imgui/imgui_tables.cpp", "imgui/imgui_widgets.cpp"] ∧
      out.files.getLast? = some "cimgui.cpp" := by
  refine ⟨_, preprocess_eq predefined, ?_⟩
  cases hft : isDefined predefined "IMGUI_ENABLE_FREETYPE" <;> simp [Output.files]

/-- C3. Every line of `cimgui_unity.cpp` is blank or one of the directives
`#define`, `#include`, `#ifdef`, `#endif`; every `#define` line precedes every
`#include` line (lines 1 to 5 are the `#define` lines, none follows); and for
every configuration preprocessing succeeds, the first file included is
`imgui/imgui.cpp`, and where each included file is expanded every name the
file defines has the replacement its `#define` line gives it. -/
theorem definitions_precede_inclusions :
    (∀ line ∈ cimgui_unity_cpp,
      parseLine line = .blank ∨ (parseLine line).isDirective = true) ∧
    (∀ i j : Fin directives.length,
      (directives.get i).isDefine = true → (directives.get j).isIncl = true → i < j) ∧
    (∀ d ∈ directives.take 5, d.isDefine = true) ∧
    (∀ d ∈ directives.drop 5, d.isDefine = false) ∧
    ∀ predefined : Env, ∃ out, preprocess predefined cimgui_unity_cpp = some out ∧
      out.included.head?.map Inclusion.path = some "imgui/imgui.cpp" ∧
      ∀ inc ∈ out.included, ∀ name body, Directive.define name body ∈ directives →
        lookup inc.env name = some body := by
  refine ⟨by decide, ?_, ?_, ?_, ?_⟩
  · rw [directives_eq]; decide
  · rw [directives_eq]; decide
  · rw [directives_eq]; decide
  · intro predefined
    refine ⟨_, preprocess_eq predefined, by simp, ?_⟩
    intro inc hinc name body hd
    have henv : inc.env = withDefinitionBlock predefined := by
      simp only [List.mem_map] at hinc
      obtain ⟨_, _, rfl⟩ := hinc
      rfl
    rw [directives_eq] at hd
    simp only [List.mem_cons, Directive.define.injEq, List.not_mem_nil, or_false,
      reduceCtorEq, false_or] at hd
    rcases hd with ⟨rfl, rfl⟩ | ⟨rfl, rfl⟩ | ⟨rfl, rfl⟩ | ⟨rfl, rfl⟩ | ⟨rfl, rfl⟩ <;>
      simp [henv, withDefinitionBlock, lookup]

/-- C4. The file defines exactly the five pairwise distinct names
`IMGUI_DISABLE_OBSOLETE_FUNCTIONS`, `IMGUI_DISABLE_OBSOLETE_KEYIO`,
`IMGUI_USE_WCHAR32`, `IMGUI_IMPL_API`, `ImTextureID`; for every configuration
the definitions in force after line 5 give `IMGUI_USE_WCHAR32` the
replacement `1`, `ImTextureID` the replacement `unsigned long long`,
`IMGUI_IMPL_API` the replacement `extern "C"`, and both
`IMGUI_DISABLE_OBSOLETE_` names the replacement `1`; every other name keeps
the definition made outside, and these are the definitions in force at the
end of the file. -/
theorem definition_block_env (predefined : Env) :
    definedNames cimgui_unity_cpp =
      [ "IMGUI_DISABLE_OBSOLETE_FUNCTIONS", "IMGUI_DISABLE_OBSOLETE_KEYIO",
        "IMGUI_USE_WCHAR32", "IMGUI_IMPL_API", "ImTextureID" ] ∧
    (definedNames cimgui_unity_cpp).Nodup ∧
    ∃ env, envAfterLines predefined cimgui_unity_cpp 5 = some env ∧
      lookup env "IMGUI_USE_WCHAR32" = some ["1"] ∧
      lookup env "ImTextureID" = some ["unsigned", "long", "long"] ∧
      lookup env "IMGUI_IMPL_API" = some ["extern", "\"C\""] ∧
      lookup env "IMGUI_DISABLE_OBSOLETE_FUNCTIONS" = some ["1"] ∧
      lookup env "IMGUI_DISABLE_OBSOLETE_KEYIO" = some ["1"] ∧
      (∀ name, name ∉ definedNames cimgui_unity_cpp →
        lookup env name = lookup predefined name) ∧
      (preprocess predefined cimgui_unity_cpp).map Output.env = some env := by
  refine ⟨definedNames_eq, by rw [definedNames_eq]; decide, _,
    envAfterLines_five predefined, ?_, ?_, ?_, ?_, ?_, ?_, ?_⟩
  · simp [withDefinitionBlock, lookup]
  · simp [withDefinitionBlock, lookup]
  · simp [withDefinitionBlock, lookup]
  · simp [withDefinitionBlock, lookup]
  · simp [withDefinitionBlock, lookup]
  · exact fun name h => lookup_withDefinitionBlock_of_not_mem predefined name h
  · rw [preprocess_eq]; rfl

/-- C5, as stated, fails: no two configurations give wide-character text
(`IMGUI_USE_WCHAR32` after line 5) different settings, so not every one of the
four feature sets is toggled by the configuration. -/
theorem wideCharText_not_toggled :
    ¬ Feature.Toggled .wideCharText ∧ ¬ ∀ f : Feature, f.Toggled := by
  have h : ¬ Feature.Toggled .wideCharText := by
    rintro ⟨e1, e2, hne⟩
    exact hne (by rw [setting_wideCharText, setting_wideCharText])
  exact ⟨h, fun hall => h (hall _)⟩

/-- C5, amended. Of the four feature sets only the font rasterization backend
is toggled by the configuration: its include is present exactly when
`IMGUI_ENABLE_FREETYPE` is defined outside, and two configurations differ in
it. Wide-character text, texture identifier width and obsolete API exclusion
have the same setting for every configuration: `IMGUI_USE_WCHAR32` is `1`,
`ImTextureID` is `unsigned long long`, both `IMGUI_DISABLE_OBSOLETE_` names
are `1`. -/
theorem only_fontRasterBackend_toggled :
    Feature.Toggled .fontRasterBackend ∧
    (∀ predefined : Env, Feature.setting .fontRasterBackend predefined =
      some (.included (isDefined predefined "IMGUI_ENABLE_FREETYPE"))) ∧
    ¬ Feature.Toggled .wideCharText ∧
    ¬ Feature.Toggled .textureIdWidth ∧
    ¬ Feature.Toggled .obsoleteApiExclusion ∧
    (∀ predefined : Env, Feature.setting .wideCharText predefined =
      some (.definitions [some ["1"]])) ∧
    (∀ predefined : Env, Feature.setting .textureIdWidth predefined =
      some (.definitions [some ["unsigned", "long", "long"]])) ∧
    (∀ predefined : Env, Feature.setting .obsoleteApiExclusion predefined =
      some (.definitions [some ["1"], some ["1"]])) := by
  refine ⟨⟨[], [("IMGUI_ENABLE_FREETYPE", ["1"])], ?_⟩, setting_fontRasterBackend, ?_, ?_, ?_,
    setting_wideCharText, setting_textureIdWidth, setting_obsoleteApiExclusion⟩
  · rw [setting_fontRasterBackend, setting_fontRasterBackend]; decide
  · rintro ⟨e1, e2, hne⟩
    exact hne (by rw [setting_wideCharText, setting_wideCharText])
  · rintro ⟨e1, e2, hne⟩
    exact hne (by rw [setting_textureIdWidth, setting_textureIdWidth])
  · rintro ⟨e1, e2, hne⟩
    exact hne (by rw [setting_obsoleteApiExclusion, setting_obsoleteApiExclusion])

/-- C7. For two configurations that differ only in whether
`IMGUI_ENABLE_FREETYPE` is defined, preprocessing succeeds on both, every name
the file defines has the same replacement in both, every name other than
`IMGUI_ENABLE_FREETYPE` has the same definition in both, and erasing
`imgui/imgui_freetype.cpp` from the files included with the definition gives
the files included without it: the five library sources and `cimgui.cpp`. -/
theorem freetype_changes_only_its_inclusion (e1 e2 : Env)
    (h1 : isDefined e1 "IMGUI_ENABLE_FREETYPE" = true)
    (h2 : isDefined e2 "IMGUI_ENABLE_FREETYPE" = false)
    (hsame : ∀ name, name ≠ "IMGUI_ENABLE_FREETYPE" → lookup e1 name = lookup e2 name) :
    ∃ o1 o2, preprocess e1 cimgui_unity_cpp = some o1 ∧
      preprocess e2 cimgui_unity_cpp = some o2 ∧
      (∀ name ∈ definedNames cimgui_unity_cpp, lookup o1.env name = lookup o2.env name) ∧
      (∀ name, name ≠ "IMGUI_ENABLE_FREETYPE" → lookup o1.env name = lookup o2.env name) ∧
      "imgui/imgui_freetype.cpp" ∈ o1.files ∧
      o1.files.erase "imgui/imgui_freetype.cpp" = o2.files ∧
      o2.files =
        ["imgui/imgui.cpp", "imgui/imgui_draw.cpp", "imgui/imgui_demo.cpp",
          "imgui/imgui_tables.cpp", "imgui/imgui_widgets.cpp", "cimgui.cpp"] := by
  refine ⟨_, _, preprocess_eq e1, preprocess_eq e2, ?_, ?_, ?_, ?_, ?_⟩
  · exact fun name h => lookup_withDefinitionBlock_of_mem e1 e2 name h
  · intro name hne
    simp [withDefinitionBlock, lookup, hsame name hne]
  · simp [Output.files, h1]
  · simp [Output.files, h1, h2]
  · simp [Output.files, h2]

/-- C7 at the configurations that define `IMGUI_ENABLE_FREETYPE` as `1` and
that define nothing. -/
theorem freetype_changes_only_its_inclusion_witness :
    isDefined [("IMGUI_ENABLE_FREETYPE", ["1"])] "IMGUI_ENABLE_FREETYPE" = true ∧
    isDefined [] "IMGUI_ENABLE_FREETYPE" = false ∧
    ∃ o1 o2, preprocess [("IMGUI_ENABLE_FREETYPE", ["1"])] cimgui_unity_cpp = some o1 ∧
      preprocess [] cimgui_unity_cpp = some o2 ∧
      (∀ name ∈ definedNames cimgui_unity_cpp, lookup o1.env name = lookup o2.env name) ∧
      (∀ name, name ≠ "IMGUI_ENABLE_FREETYPE" → lookup o1.env name = lookup o2.env name) ∧
      "imgui/imgui_freetype.cpp" ∈ o1.files ∧
      o1.files.erase "imgui/imgui_freetype.cpp" = o2.files ∧
      o2.files =
        ["imgui/imgui.cpp", "imgui/imgui_draw.cpp", "imgui/imgui_demo.cpp",
          "imgui/imgui_tables.cpp", "imgui/imgui_widgets.cpp", "cimgui.cpp"] :=
  ⟨by decide, by decide,
    freetype_changes_only_its_inclusion [("IMGUI_ENABLE_FREETYPE", ["1"])] [] (by decide)
      (by decide) (fun name hne => by simp [lookup, Ne.symm hne])⟩

end CimguiUnity
